import Mathlib

/-
Verification of the worker-side subtask execution core of the mars
distributed dataflow engine, shallowly embedded from
src/mars/services/scheduling/worker/execution.py and
src/mars/services/subtask/worker/processor.py.

Python exceptions are modelled by explicit result values; asyncio
cancellation is one of those values.  Awaited external calls are modelled
by scenario records fixing each call outcome; the control flow, the order
of emitted events and the field updates follow the Python source line by
line.
-/

namespace MarsExec

/-! Exceptions of the execution module.  OSError and MarsError are the two
classes the retry loop catches; CancelledError is a BaseException in
Python 3.8+ and is not caught by except-Exception clauses. -/

inductive PyErr where
  | osError (msg : String)
  | marsError (msg : String)
  | otherError (msg : String)
deriving DecidableEq, Repr

/-- Predicate for the except (OSError, MarsError) clause of the retry loop. -/
def PyErr.isRetryable : PyErr → Bool
  | .osError _ => true
  | .marsError _ => true
  | .otherError _ => false

/-- Result of one awaited attempt of the target coroutine: a value, a raised
exception, or asyncio cancellation. -/
inductive AttemptRes where
  | ok (v : Nat)
  | exc (e : PyErr)
  | cancel
deriving DecidableEq, Repr

/-- Outcome of retry_run: the returned value, or the raised object. -/
inductive RetryOutcome where
  | value (v : Nat)
  | exceedMaxRerun (e : PyErr)
  | unhandledWrap (e : PyErr)
  | verbatim (e : PyErr)
  | cancelled
deriving DecidableEq, Repr

/-- Embedding of retry_run (execution.py lines 61-107).  The while-True
loop is driven by the stream of attempt outcomes; the first component of
the result is the trajectory of values taken by subtask_info.num_retries
(its value on entry and after every increment), the second the outcome;
none models a stream shorter than the number of attempts the loop makes. -/
def retry_run : List AttemptRes → Nat → Nat → List Nat × Option RetryOutcome
  | [], num, _ => ([num], none)
  | a :: rest, num, maxRetries =>
    match a with
    | .ok v => ([num], some (.value v))
    | .cancel => ([num], some .cancelled)
    | .exc e =>
      if e.isRetryable then
        if num < maxRetries then
          let r := retry_run rest (num + 1) maxRetries
          (num :: r.1, r.2)
        else if 0 < maxRetries then ([num], some (.exceedMaxRerun e))
        else ([num], some (.verbatim e))
      else if 0 < maxRetries then ([num], some (.unhandledWrap e))
      else ([num], some (.verbatim e))

/-! Subtask result filler (C5). -/

/-- Python exception value carried to the filler, with its traceback.
ExecutionError wraps a nested error (core.ExecutionError). -/
inductive PyExc where
  | cancelledError (tb : Nat)
  | executionError (nested : PyExc) (tb : Nat)
  | otherExc (name : String) (tb : Nat)
deriving DecidableEq, Repr

/-- Traceback attached to an exception object. -/
def PyExc.traceback : PyExc → Nat
  | .cancelledError tb => tb
  | .executionError _ tb => tb
  | .otherExc _ tb => tb

/-- Test corresponding to isinstance(exc, asyncio.CancelledError). -/
def PyExc.isCancelled : PyExc → Bool
  | .cancelledError _ => true
  | _ => false

inductive SubtaskStatus where
  | pending
  | running
  | succeeded
  | errored
  | cancelled
deriving DecidableEq, Repr

structure SubtaskResult where
  status : SubtaskStatus
  progress : ℚ
  dataSize : Option Nat
  error : Option PyExc
  traceback : Option Nat
deriving DecidableEq, Repr

/-- Embedding of fill_subtask_result_with_exception (execution.py lines
110-138).  sys.exc_info() supplies the current exception and its
traceback; an ExecutionError is unwrapped once to its nested_error and
that error's own traceback is taken. -/
def fill_subtask_result_with_exception (exc : PyExc) (r : SubtaskResult) :
    SubtaskResult :=
  let unwrapped : PyExc × Nat :=
    match exc with
    | .executionError nested _ => (nested, nested.traceback)
    | e => (e, e.traceback)
  let status :=
    if (unwrapped.1).isCancelled then SubtaskStatus.cancelled
    else SubtaskStatus.errored
  { r with
    status := status
    progress := 1
    error := some unwrapped.1
    traceback := some unwrapped.2 }

/-! Non-retryable subtask path (C6). -/

/-- Operand as seen by the unretryable diagnostic: getattr(op, "retryable",
True) is the retryable field. -/
structure POp where
  key : String
  retryable : Bool
deriving DecidableEq, Repr

/-- Chunk of a subtask chunk graph, carrying its operand. -/
structure PChunk where
  key : String
  op : POp
deriving DecidableEq, Repr

/-- Outcome of retry_run_subtask on the non-retryable branch. -/
inductive OnceOutcome where
  | value (v : Nat)
  | unretryableWrap (e : PyErr) (ops : List POp)
  | cancelled
deriving DecidableEq, Repr

/-- Embedding of the non-retryable branch of retry_run_subtask
(execution.py lines 498-516): run_subtask_once is awaited once; an
Exception is wrapped as an _UnretryableException whose diagnostic lists
chunk.op for every chunk of the graph whose op has retryable false;
CancelledError is not an Exception and propagates unwrapped.  The first
component counts the attempts made. -/
def run_once_unretryable (graph : List PChunk) (attempt : AttemptRes) :
    Nat × OnceOutcome :=
  match attempt with
  | .ok v => (1, .value v)
  | .cancel => (1, .cancelled)
  | .exc e =>
    let unretryableOps :=
      (graph.filter (fun chunk => !chunk.op.retryable)).map (·.op)
    (1, .unretryableWrap e unretryableOps)

/-! Periodic progress report (C10). -/

/-- Chunk shape needed by the progress reporter: only whether its op is a
Fetch or FetchShuffle matters. -/
structure RChunk where
  key : String
  isFetchLike : Bool
deriving DecidableEq, Repr

/-- Embedding of the actual chunk count computed in SubtaskProcessor
init (processor.py lines 72-78): chunks whose op is neither Fetch nor
FetchShuffle. -/
def actual_chunk_count (chunks : List RChunk) : Nat :=
  (chunks.filter (fun c => !c.isFetchLike)).length

/-- Embedding of the progress computation of report_progress_periodically
(processor.py lines 522-523): the sum of per-op progress divided by the
actual chunk count, with no zero guard; none models the
ZeroDivisionError Python raises when the divisor is 0. -/
def progress_sample (opProgress : List (String × ℚ)) (size : Nat) :
    Option ℚ :=
  if size = 0 then none
  else some ((opProgress.map (·.2)).sum / (size : ℚ))

/-! Resource lifecycle of run_subtask_once (C1). -/

/-- Result of an awaited external call that returns no useful value. -/
inductive CallRes where
  | ok
  | cancel
  | exc (e : PyErr)
deriving DecidableEq, Repr

/-- Events emitted by run_subtask_once, in the order the corresponding
awaits appear in the source. -/
inductive Ev1 where
  | quotaRequest
  | slotAcquire (slotId : Nat)
  | runInSlot (slotId : Nat)
  | cancelInSlot (slotId : Nat)
  | killSlot (slotId : Nat)
  | waitPoolRecovered
  | getSubtaskSlot
  | slotRelease (slotId : Nat)
  | quotaRelease
deriving DecidableEq, Repr

/-- Outcomes of the external calls awaited by run_subtask_once: the quota
request, the cancelling flag at the first check, the slot acquisition
(with the returned slot id), the cancelling flag at the second check, the
shielded inner run, whether cancel_subtask_in_slot exceeds kill_timeout,
and what get_subtask_slot returns in the finally block when no slot was
recorded. -/
structure OnceEnv where
  quotaRes : CallRes
  cancelling1 : Bool
  slotRes : CallRes
  slotId : Nat
  cancelling2 : Bool
  runRes : AttemptRes
  cancelTimesOut : Bool
  recoveredSlot : Option Nat
deriving DecidableEq, Repr

/-- Exit of run_subtask_once. -/
inductive OnceExit where
  | returned (v : Nat)
  | raisedCancelled
  | raisedErr (e : PyErr)
deriving DecidableEq, Repr

/-- Events of the finally block of run_subtask_once (execution.py lines
476-492): when slot_id is None it is first looked up via
get_subtask_slot; a non-None slot id is released via release_free_slot;
release_quotas always runs last. -/
def once_finally : Option Nat → Option Nat → List Ev1
  | some sid, _ => [.slotRelease sid, .quotaRelease]
  | none, some sid => [.getSubtaskSlot, .slotRelease sid, .quotaRelease]
  | none, none => [.getSubtaskSlot, .quotaRelease]

/-- Embedding of run_subtask_once (execution.py lines 422-492): quota is
requested first, cancellation is checked, a slot is acquired and recorded,
cancellation is checked again, the inner run is awaited under shield; a
CancelledError with an inner task outstanding drives the bounded cancel
then kill path; an OSError or MarsError with a slot held waits for the
sub-pool to recover; the finally block releases the slot and then the
quota. -/
def run_subtask_once (env : OnceEnv) : List Ev1 × OnceExit :=
  match env.quotaRes with
  | .cancel =>
    (.quotaRequest :: once_finally none env.recoveredSlot, .raisedCancelled)
  | .exc e =>
    (.quotaRequest :: once_finally none env.recoveredSlot, .raisedErr e)
  | .ok =>
    if env.cancelling1 then
      (.quotaRequest :: once_finally none env.recoveredSlot,
        .raisedCancelled)
    else
      match env.slotRes with
      | .cancel =>
        (.quotaRequest :: once_finally none env.recoveredSlot,
          .raisedCancelled)
      | .exc e =>
        (.quotaRequest :: once_finally none env.recoveredSlot,
          .raisedErr e)
      | .ok =>
        let sid := env.slotId
        if env.cancelling2 then
          (.quotaRequest :: .slotAcquire sid ::
              once_finally (some sid) env.recoveredSlot,
            .raisedCancelled)
        else
          match env.runRes with
          | .ok v =>
            (.quotaRequest :: .slotAcquire sid :: .runInSlot sid ::
                once_finally (some sid) env.recoveredSlot,
              .returned v)
          | .cancel =>
            let cancelEvs :=
              if env.cancelTimesOut then
                [Ev1.cancelInSlot sid, Ev1.killSlot sid,
                  Ev1.waitPoolRecovered]
              else [Ev1.cancelInSlot sid]
            (.quotaRequest :: .slotAcquire sid :: .runInSlot sid ::
                (cancelEvs ++ once_finally (some sid) env.recoveredSlot),
              .raisedCancelled)
          | .exc e =>
            let recoverEvs :=
              if e.isRetryable then [Ev1.waitPoolRecovered] else []
            (.quotaRequest :: .slotAcquire sid :: .runInSlot sid ::
                (recoverEvs ++ once_finally (some sid) env.recoveredSlot),
              .raisedErr e)

/-! Processor run pipeline and unpin symmetry (C4). -/

/-- Storage data key: plain chunk keys are strings, shuffle mapper keys
are tuple shaped. -/
inductive DataKey where
  | simple (s : String)
  | mapper (chunk : String) (idx : Nat)
deriving DecidableEq, Repr

/-- Events of the SubtaskProcessor.run pipeline. -/
inductive Ev4 where
  | loadInputs
  | executeGraph
  | unpin (keys : List DataKey)
  | storeData
  | storeMeta
deriving DecidableEq, Repr

/-- Failure of an awaited pipeline step. -/
inductive StepFail where
  | cancel
  | exc (e : PyErr)
deriving DecidableEq, Repr

/-- Outcomes of the awaited steps of SubtaskProcessor.run: loading the
input data (returning the loaded keys on success), executing the graph,
unpinning, storing data and storing meta. -/
structure RunEnv where
  loadRes : Except StepFail (List DataKey)
  execRes : CallRes
  unpinRes : CallRes
  storeRes : CallRes
  metaRes : CallRes
deriving Repr

/-- Exit of SubtaskProcessor.run. -/
inductive RunExit where
  | finished
  | raisedCancelled
  | raisedErr (e : PyErr)
deriving DecidableEq, Repr

/-- Exit value produced by a failing step. -/
def StepFail.exit : StepFail → RunExit
  | .cancel => .raisedCancelled
  | .exc e => .raisedErr e

/-- Embedding of SubtaskProcessor.run (processor.py lines 435-517):
load_input_data returns input_keys; execute_graph runs inside a try whose
finally sets unpinned and awaits unpin_data(input_keys); then data and
meta are stored; the outer finally unpins only when input_keys is not
None and unpinned is still false.  An exception raised by the unpin call
in the inner finally replaces the in-flight exception, as in Python. -/
def processor_run (env : RunEnv) : List Ev4 × RunExit :=
  match env.loadRes with
  | .error f =>
    -- input_keys is still None in the outer finally: no unpin
    ([.loadInputs], f.exit)
  | .ok keys =>
    -- inner try: execute_graph, finally unpin (unpinned := true before the
    -- await, so the outer finally never unpins again)
    match env.execRes, env.unpinRes with
    | .cancel, .ok =>
      ([.loadInputs, .executeGraph, .unpin keys], .raisedCancelled)
    | .exc e, .ok =>
      ([.loadInputs, .executeGraph, .unpin keys], .raisedErr e)
    | _, .cancel =>
      ([.loadInputs, .executeGraph, .unpin keys], .raisedCancelled)
    | _, .exc e =>
      ([.loadInputs, .executeGraph, .unpin keys], .raisedErr e)
    | .ok, .ok =>
      match env.storeRes with
      | .cancel =>
        ([.loadInputs, .executeGraph, .unpin keys, .storeData],
          .raisedCancelled)
      | .exc e =>
        ([.loadInputs, .executeGraph, .unpin keys, .storeData],
          .raisedErr e)
      | .ok =>
        match env.metaRes with
        | .cancel =>
          ([.loadInputs, .executeGraph, .unpin keys, .storeData,
              .storeMeta], .raisedCancelled)
        | .exc e =>
          ([.loadInputs, .executeGraph, .unpin keys, .storeData,
              .storeMeta], .raisedErr e)
        | .ok =>
          ([.loadInputs, .executeGraph, .unpin keys, .storeData,
              .storeMeta], .finished)

/-- Test for unpin events. -/
def Ev4.isUnpin : Ev4 → Bool
  | .unpin _ => true
  | _ => false

/-! Meta publication of the processor (C3). -/

/-- Association list lookup, first binding wins, as in a Python dict
membership test plus subscript. -/
def alookup {α β : Type} [DecidableEq α] : List (α × β) → α → Option β
  | [], _ => none
  | (k, v) :: rest, key => if k = key then some v else alookup rest key

/-- Per-key information returned by the storage put batch (processor.py
lines 299-305): the three dicts data_key_to_store_size,
data_key_to_memory_size and data_key_to_object_id are populated in
lockstep from it, so they are modelled as one map. -/
structure StoreInfo where
  store_size : Nat
  memory_size : Nat
  object_id : String
deriving DecidableEq, Repr

/-- Result chunk of the optimized chunk graph as used by store_meta; nid
distinguishes chunk objects that share a key. -/
structure MChunk where
  nid : Nat
  key : String
deriving DecidableEq, Repr

/-- Modelled from the spec: get_mapper_data_keys lives in
mars/services/subtask/utils.py, which is not under src.  Per the spec a
shuffle mapper result chunk produces multiple mapper keys, identified as
tuple-shaped keys; its mapper keys among the put results are the
tuple-shaped keys whose first element is the chunk key. -/
def get_mapper_data_keys (key : String)
    (infos : List (DataKey × StoreInfo)) : List DataKey :=
  (infos.map (·.1)).filter fun k =>
    match k with
    | .mapper c _ => c = key
    | .simple _ => false

/-- Object reference recorded in supervisor meta: a single ref for a
directly stored chunk, a list of refs for a shuffle mapper chunk. -/
inductive ObjectRef where
  | single (s : String)
  | multiple (l : List String)
deriving DecidableEq, Repr

/-- Meta entry published for one result chunk. -/
structure MetaEntry where
  chunkKey : String
  memory_size : Nat
  store_size : Nat
  objectRef : Option ObjectRef
deriving DecidableEq, Repr

/-- Sizes and object ref computed for one result chunk by store_meta
(processor.py lines 350-363): a chunk whose key is among the put results
uses its own sizes and object id; otherwise it is a mapper chunk and its
sizes are summed over its mapper keys, with the object refs collected as
a list. -/
def chunk_store_record (infos : List (DataKey × StoreInfo))
    (chunkKey : String) : Nat × Nat × ObjectRef :=
  match alookup infos (.simple chunkKey) with
  | some info => (info.store_size, info.memory_size, .single info.object_id)
  | none =>
    let mapperKeys := get_mapper_data_keys chunkKey infos
    ((mapperKeys.map fun k => (alookup infos k).elim 0 (·.store_size)).sum,
      (mapperKeys.map fun k => (alookup infos k).elim 0 (·.memory_size)).sum,
      .multiple (mapperKeys.map fun k => (alookup infos k).elim "" (·.object_id)))

/-- Embedding of store_meta (processor.py lines 336-425): iterate the
result chunks of the optimized graph building the worker meta entries
(for chunks in update_meta_chunks, excluding object_ref) and the
supervisor meta entries (always, with object_ref); result_data_size is
accumulated only in the directly-stored branch (processor.py line 356),
so a mapper chunk contributes its summed sizes to the meta entries but
nothing to result_data_size; returns (worker metas, supervisor metas,
result data size), the last being assigned to result.data_size. -/
def store_meta (infos : List (DataKey × StoreInfo))
    (updateMetaChunks : List MChunk) :
    List MChunk → List MetaEntry × List MetaEntry × Nat
  | [] => ([], [], 0)
  | c :: rest =>
    let r := chunk_store_record infos c.key
    let dataSizeInc : Nat :=
      match alookup infos (.simple c.key) with
      | some info => info.memory_size
      | none => 0
    let workerEntry : List MetaEntry :=
      if c ∈ updateMetaChunks then
        [{ chunkKey := c.key, memory_size := r.2.1, store_size := r.1,
           objectRef := none }]
      else []
    let supEntry : MetaEntry :=
      { chunkKey := c.key, memory_size := r.2.1, store_size := r.1,
        objectRef := some r.2.2 }
    let tailRes := store_meta infos updateMetaChunks rest
    (workerEntry ++ tailRes.1, supEntry :: tailRes.2.1,
      dataSizeInc + tailRes.2.2)

/-- Claimed per-chunk contribution to result_data_size, written from the
words of the spec for comparison with store_meta: the own memory size of
a directly stored result chunk, and the sum of the mapper key memory
sizes of a shuffle mapper result chunk. -/
def claimed_result_memory (infos : List (DataKey × StoreInfo))
    (c : MChunk) : Nat :=
  match alookup infos (.simple c.key) with
  | some info => info.memory_size
  | none =>
    ((get_mapper_data_keys c.key infos).map fun k =>
      (alookup infos k).elim 0 (·.memory_size)).sum

/-- Put results holding only the two mapper keys of chunk m. -/
def mapperOnlyInfos : List (DataKey × StoreInfo) :=
  [(DataKey.mapper "m" 0,
    { store_size := 2, memory_size := 5, object_id := "o0" }),
   (DataKey.mapper "m" 1,
    { store_size := 3, memory_size := 7, object_id := "o1" })]

/-- Result chunk m, stored only through its mapper keys. -/
def mapperChunk : MChunk := { nid := 0, key := "m" }

/-! Memory estimator (C7, C9), embedded from execution.py lines 263-340. -/

/-- Association list update, replacing the first binding or appending. -/
def aset {α β : Type} [DecidableEq α] : List (α × β) → α → β → List (α × β)
  | [], k, v => [(k, v)]
  | (k1, v1) :: rest, k, v =>
    if k1 = k then (k, v) :: rest else (k1, v1) :: aset rest k v

/-- Association list removal of the first binding of a key, as dict.pop. -/
def aremove {α β : Type} [DecidableEq α] : List (α × β) → α → List (α × β)
  | [], _ => []
  | (k1, v1) :: rest, k =>
    if k1 = k then rest else (k1, v1) :: aremove rest k

/-- Counter read with default 0, as a defaultdict of int. -/
def csGet (m : List (String × Int)) (k : String) : Int :=
  (alookup m k).getD 0

/-- Size context mapping chunk keys to (store_size, calc_size) pairs. -/
def SizeCtx : Type := List (String × Nat × Nat)

/-- Operand of the estimator.  The est field stands for
op.estimate_size(size_context, op): given the current size context it
yields the (store_size, calc_size) entries it writes for the op outputs;
Fetch operands are never estimated. -/
structure EOp where
  key : String
  isFetch : Bool
  outputKeys : List String
  est : SizeCtx → List (String × Nat × Nat)

/-- Chunk node of the subtask chunk graph: a node id (chunk object
identity), the chunk data key, and the operand producing it. -/
structure EChunk where
  nid : Nat
  key : String
  op : EOp

/-- Chunk graph of a subtask: the chunk nodes, listed in the order of
graph.topological_iter, the directed edges between node ids, and the
pure_depend_keys of the subtask. -/
structure EGraph where
  chunks : List EChunk
  edges : List (Nat × Nat)
  pureDependKeys : List String

/-- Condensed op key graph: nodes and edges in insertion order. -/
structure OpGraph where
  nodes : List String
  edges : List (String × String)

/-- Add a node unless already present, as DAG.add_node. -/
def OpGraph.addNode (og : OpGraph) (k : String) : OpGraph :=
  if k ∈ og.nodes then og else { og with nodes := og.nodes ++ [k] }

/-- Add an edge unless already present, as DAG.add_edge. -/
def OpGraph.addEdge (og : OpGraph) (e : String × String) : OpGraph :=
  if e ∈ og.edges then og else { og with edges := og.edges ++ [e] }

/-- Successor chunks of a chunk node, in edge insertion order. -/
def EGraph.chunkSuccs (g : EGraph) (n : EChunk) : List EChunk :=
  (g.edges.filter (fun e => e.1 = n.nid)).filterMap fun e =>
    g.chunks.find? fun c => c.nid = e.2

/-- Representative operand for an op key, as key_to_ops[key][0]: the op
of the first graph chunk carrying that op key. -/
def EGraph.keyToOp (g : EGraph) (k : String) : Option EOp :=
  (g.chunks.find? fun c => c.op.key = k).map (·.op)

/-- Condensation of the chunk graph into the op key graph (execution.py
lines 276-285): iterate chunks topologically, skip pure-depend chunks,
add the chunk op key and, for every successor chunk, the successor op
key and an edge between the two op keys. -/
def buildOpGraph (g : EGraph) : OpGraph :=
  g.chunks.foldl
    (fun og n =>
      if n.key ∈ g.pureDependKeys then og
      else
        let og := og.addNode n.op.key
        (g.chunkSuccs n).foldl
          (fun og succ =>
            (og.addNode succ.op.key).addEdge (n.op.key, succ.op.key))
          og)
    { nodes := [], edges := [] }

/-- Predecessor count of an op key in the op graph. -/
def OpGraph.predCount (og : OpGraph) (k : String) : Nat :=
  (og.edges.filter (fun e => e.2 = k)).length

/-- Successor count of an op key in the op graph. -/
def OpGraph.succCount (og : OpGraph) (k : String) : Nat :=
  (og.edges.filter (fun e => e.1 = k)).length

/-- Successors of an op key, in edge insertion order. -/
def OpGraph.succsOf (og : OpGraph) (k : String) : List String :=
  (og.edges.filter (fun e => e.1 = k)).map (·.2)

/-- Predecessors of an op key, in edge insertion order. -/
def OpGraph.predsOf (og : OpGraph) (k : String) : List String :=
  (og.edges.filter (fun e => e.2 = k)).map (·.1)

/-- Occurrence count of every chunk key over the whole graph, as
chunk_key_to_sizes is initialized (execution.py lines 269-272). -/
def initChunkKeySizes (g : EGraph) : List (String × Int) :=
  g.chunks.foldl (fun m c => aset m c.key (csGet m c.key + 1)) []

/-- Component sum of a list of output keys over the size context; none
models the KeyError Python raises when an output key is missing. -/
def sumSizes (f : Nat × Nat → Nat) (ctx : SizeCtx) : List String → Option Nat
  | [] => some 0
  | k :: ks =>
    match alookup ctx k with
    | none => none
    | some v => (sumSizes f ctx ks).map (f v + ·)

/-- Application of the entries written by estimate_size to the context. -/
def applyEst (ctx : SizeCtx) (updates : List (String × Nat × Nat)) :
    SizeCtx :=
  updates.foldl (fun c u => aset c u.1 u.2) ctx

/-- Sum of the calc components of the context values, as the
initialization of max_memory_cost (execution.py line 293). -/
def sumCalcVals (ctx : SizeCtx) : Nat :=
  (ctx.map (·.2.2)).sum

/-- Sum of the store components of the context values, the first return
component (execution.py line 340). -/
def sumStoreVals (ctx : SizeCtx) : Nat :=
  (ctx.map (·.2.1)).sum

/-- Mutable state of the estimator loop. -/
structure EstState where
  stack : List String
  predRef : List (String × Int)
  succRef : List (String × Int)
  sizeCtx : SizeCtx
  chunkKeySizes : List (String × Int)
  totalMemoryCost : Int
  maxMemoryCost : Int

/-- Pop loop over the outputs of a released predecessor (execution.py
lines 327-338): accumulate the account component of each output entry,
removing the entry from the context when its chunk key count reached
zero and reading it with default (0, 0) otherwise; the account component
is the calc one for a Fetch predecessor and the store one for a compute
predecessor. -/
def popOuts (fetchAccount : Bool) (ck : List (String × Int)) :
    List String → Int × SizeCtx → Int × SizeCtx
  | [], acc => acc
  | k :: ks, acc =>
    let v := (alookup acc.2 k).getD (0, 0)
    let comp : Nat := if fetchAccount then v.2 else v.1
    popOuts fetchAccount ck ks
      (if csGet ck k = 0 then (acc.1 + comp, aremove acc.2 k)
       else (acc.1 + comp, acc.2))

/-- Predecessor walk of one loop iteration (execution.py lines 318-339):
decrement each predecessor successor count; on reaching zero, take the
representative pred op, decrement the chunk key counts of all its
outputs, run the pop loop and deduct the accumulated cost. -/
def procPreds (g : EGraph) : List String → List (String × Int) →
    List (String × Int) → SizeCtx → Int →
    Option (List (String × Int) × List (String × Int) × SizeCtx × Int)
  | [], succRef, ck, ctx, total => some (succRef, ck, ctx, total)
  | p :: ps, succRef, ck, ctx, total =>
    let c := csGet succRef p - 1
    let succRef := aset succRef p c
    if c = 0 then
      match g.keyToOp p with
      | none => none
      | some predOp =>
        let outs := predOp.outputKeys
        let ck := outs.foldl (fun m k => aset m k (csGet m k - 1)) ck
        let popState := popOuts predOp.isFetch ck outs ((0 : Int), ctx)
        procPreds g ps succRef ck popState.2 (total - popState.1)
    else procPreds g ps succRef ck ctx total

/-- One iteration of the estimator loop on a popped op key (execution.py
lines 295-339): estimate a non-Fetch op into the context, add the calc
cost of the outputs, record the running peak, replace calc cost by store
cost for a non-Fetch op, decrement successor predecessor counts pushing
those that reach zero, then walk predecessors. -/
def est_step (g : EGraph) (og : OpGraph) (key : String)
    (rest : List String) (st : EstState) : Option EstState :=
  match g.keyToOp key with
  | none => none
  | some op =>
    let ctx1 := if op.isFetch then st.sizeCtx
      else applyEst st.sizeCtx (op.est st.sizeCtx)
    match sumSizes (·.2) ctx1 op.outputKeys with
    | none => none
    | some calcCost =>
      let total1 := st.totalMemoryCost + (calcCost : Int)
      let max1 := max total1 st.maxMemoryCost
      match (if op.isFetch then some total1
        else (sumSizes (·.1) ctx1 op.outputKeys).map
          fun resultCost => total1 + (resultCost : Int) - (calcCost : Int)) with
      | none => none
      | some total2 =>
        let pushState := (og.succsOf key).foldl
          (fun (acc : List String × List (String × Int)) s =>
            let c := csGet acc.2 s - 1
            (if c = 0 then acc.1 ++ [s] else acc.1, aset acc.2 s c))
          ([], st.predRef)
        match procPreds g (og.predsOf key) st.succRef st.chunkKeySizes
            ctx1 total2 with
        | none => none
        | some r =>
          some
            { stack := pushState.1.reverse ++ rest
              predRef := pushState.2
              succRef := r.1
              sizeCtx := r.2.2.1
              chunkKeySizes := r.2.1
              totalMemoryCost := r.2.2.2
              maxMemoryCost := max1 }

/-- Estimator while loop (execution.py lines 294-339), with fuel bounding
the number of pops; the loop exits when the stack is empty, returning the
store component sum of the remaining context and the recorded peak. -/
def estLoop (g : EGraph) (og : OpGraph) : Nat → EstState → Option (Nat × Int)
  | 0, st =>
    match st.stack with
    | [] => some (sumStoreVals st.sizeCtx, st.maxMemoryCost)
    | _ :: _ => none
  | fuel + 1, st =>
    match st.stack with
    | [] => some (sumStoreVals st.sizeCtx, st.maxMemoryCost)
    | key :: rest =>
      match est_step g og key rest st with
      | none => none
      | some st2 => estLoop g og fuel st2

/-- Embedding of estimate_sizes (execution.py lines 263-340): copy the
input sizes into the size context, condense the op key graph, seed the
stack with the independent op keys (popped from the end, so the top of
the head-first stack is the reversed independent list), initialize the
reference counts and the chunk key counts, start the running cost at 0
and the peak at the calc sum of the inputs, and run the loop. -/
def estimate_sizes (g : EGraph) (inputSizes : List (String × Nat × Nat)) :
    Option (Nat × Int) :=
  let og := buildOpGraph g
  estLoop g og (og.nodes.length + og.edges.length)
    { stack := (og.nodes.filter fun k => og.predCount k = 0).reverse
      predRef := og.nodes.map fun k => (k, (og.predCount k : Int))
      succRef := og.nodes.map fun k => (k, (og.succCount k : Int))
      sizeCtx := inputSizes
      chunkKeySizes := initChunkKeySizes g
      totalMemoryCost := 0
      maxMemoryCost := (sumCalcVals inputSizes : Int) }

/-- Doubling of the memory-cost component of every input entry. -/
def doubleMem (inputSizes : List (String × Nat × Nat)) :
    List (String × Nat × Nat) :=
  inputSizes.map fun e => (e.1, e.2.1, 2 * e.2.2)

/-- Graphs whose chunks are all produced by Fetch operands. -/
def FetchOnly (g : EGraph) : Prop :=
  ∀ c ∈ g.chunks, c.op.isFetch = true

/-- Fetch operand with a single output chunk of key a. -/
def opFetchA : EOp :=
  { key := "fa", isFetch := true, outputKeys := ["a"], est := fun _ => [] }

/-- Compute operand with a single output chunk of key b whose estimate is
the constant (100, 100) whatever the input sizes. -/
def opComputeB : EOp :=
  { key := "fb", isFetch := false, outputKeys := ["b"],
    est := fun _ => [("b", 100, 100)] }

/-- Two-chunk graph: a fetched input chunk a feeding a computed chunk b
whose estimate does not scale with the input. -/
def gFetchCompute : EGraph :=
  { chunks := [ { nid := 0, key := "a", op := opFetchA },
      { nid := 1, key := "b", op := opComputeB } ]
    edges := [(0, 1)]
    pureDependKeys := [] }

/-- Fetch operand with a single output chunk of key b. -/
def opFetchB : EOp :=
  { key := "fb", isFetch := true, outputKeys := ["b"], est := fun _ => [] }

/-- Graph of two independent fetched chunks. -/
def gAllFetch : EGraph :=
  { chunks := [ { nid := 0, key := "a", op := opFetchA },
      { nid := 1, key := "b", op := opFetchB } ]
    edges := []
    pureDependKeys := [] }

end MarsExec

namespace MarsExec

/-! Theorems for claims C2, C8, C5, C6, C10, C1, C4. -/

/-- C2: retry_run retries OSError and MarsError while num_retries is
below max_retries, incrementing between attempts; with retries exhausted
and max_retries positive the last retryable error is raised wrapped as
_ExceedMaxRerun; with max_retries zero every error propagates verbatim;
any other non-cancellation exception is wrapped as _UnhandledException
exactly when max_retries is positive; cancellation propagates at once
unwrapped. -/
theorem retry_run_policy (as : List AttemptRes) (num maxRetries : Nat) :
    (∀ e rest, e.isRetryable → num < maxRetries →
      (retry_run (.exc e :: rest) num maxRetries).2 =
        (retry_run rest (num + 1) maxRetries).2) ∧
    (∀ e rest, e.isRetryable → ¬ num < maxRetries → 0 < maxRetries →
      (retry_run (.exc e :: rest) num maxRetries).2 =
        some (.exceedMaxRerun e)) ∧
    (∀ e rest, maxRetries = 0 →
      (retry_run (.exc e :: rest) num maxRetries).2 =
        some (.verbatim e)) ∧
    (∀ e rest, ¬ e.isRetryable → 0 < maxRetries →
      (retry_run (.exc e :: rest) num maxRetries).2 =
        some (.unhandledWrap e)) ∧
    (∀ rest, (retry_run (.cancel :: rest) num maxRetries).2 =
      some .cancelled) ∧
    (∀ e, (retry_run as num maxRetries).2 = some (.verbatim e) →
      maxRetries = 0) ∧
    (∀ e, (retry_run as num maxRetries).2 = some (.exceedMaxRerun e) →
      0 < maxRetries ∧ e.isRetryable) := by
  refine ⟨?_, ?_, ?_, ?_, ?_, ?_, ?_⟩
  · intro e rest he h
    simp [retry_run, he, h]
  · intro e rest he h hpos
    simp [retry_run, he, h, hpos]
  · intro e rest h
    subst h
    by_cases he : e.isRetryable <;> simp [retry_run, he]
  · intro e rest he hpos
    simp [retry_run, he, hpos]
  · intro rest
    simp [retry_run]
  · induction as generalizing num with
    | nil => intro e h; simp [retry_run] at h
    | cons a rest ih =>
      intro e h
      match a with
      | .ok v => simp [retry_run] at h
      | .cancel => simp [retry_run] at h
      | .exc e2 =>
        by_cases hr : e2.isRetryable
        · by_cases hlt : num < maxRetries
          · simp [retry_run, hr, hlt] at h
            exact ih (num + 1) e h
          · by_cases hpos : 0 < maxRetries
            · simp [retry_run, hr, hlt, hpos] at h
            · omega
        · by_cases hpos : 0 < maxRetries
          · simp [retry_run, hr, hpos] at h
          · omega
  · induction as generalizing num with
    | nil => intro e h; simp [retry_run] at h
    | cons a rest ih =>
      intro e h
      match a with
      | .ok v => simp [retry_run] at h
      | .cancel => simp [retry_run] at h
      | .exc e2 =>
        by_cases hr : e2.isRetryable
        · by_cases hlt : num < maxRetries
          · simp [retry_run, hr, hlt] at h
            exact ih (num + 1) e h
          · by_cases hpos : 0 < maxRetries
            · simp [retry_run, hr, hlt, hpos] at h
              exact ⟨hpos, h ▸ hr⟩
            · simp [retry_run, hr, hlt, hpos] at h
        · by_cases hpos : 0 < maxRetries
          · simp [retry_run, hr, hpos] at h
          · simp [retry_run, hr, hpos] at h

/-- Witness for retry_run_policy: a retryable OSError with one retry
left is retried with num_retries incremented, and then succeeds. -/
theorem retry_run_policy_witness :
    (retry_run [.exc (.osError "conn reset"), .ok 5] 0 2).2 =
      (retry_run [.ok 5] 1 2).2 ∧
    (retry_run [.ok 5] 1 2).2 = some (.value 5) :=
  ⟨(retry_run_policy [.exc (.osError "conn reset"), .ok 5] 0 2).1
      (.osError "conn reset") [.ok 5] (by decide) (by decide),
    by decide⟩

/-- C8: the trajectory of num_retries recorded by retry_run never exceeds
max_retries when it starts no greater, since the increment is guarded by
num_retries < max_retries; in particular a run starting from 0 with
max_retries positive keeps num_retries at most max_retries. -/
theorem retry_num_le_max (as : List AttemptRes) (num maxRetries : Nat)
    (h : num ≤ maxRetries) :
    ∀ n ∈ (retry_run as num maxRetries).1, n ≤ maxRetries := by
  induction as generalizing num with
  | nil =>
    intro n hn
    simp [retry_run] at hn
    omega
  | cons a rest ih =>
    intro n hn
    match a with
    | .ok v => simp [retry_run] at hn; omega
    | .cancel => simp [retry_run] at hn; omega
    | .exc e =>
      by_cases hr : e.isRetryable
      · by_cases hlt : num < maxRetries
        · simp [retry_run, hr, hlt] at hn
          rcases hn with hn | hn
          · omega
          · exact ih (num + 1) (by omega) n hn
        · simp [retry_run, hr, hlt] at hn
          by_cases hpos : 0 < maxRetries <;> simp [hpos] at hn <;> omega
      · simp [retry_run, hr] at hn
        by_cases hpos : 0 < maxRetries <;> simp [hpos] at hn <;> omega

/-- Witness for retry_num_le_max: with max_retries 2 and two retryable
failures before success, the last observed num_retries value 2 is an
observed value and stays at most 2. -/
theorem retry_num_le_max_witness :
    2 ∈ (retry_run
        [.exc (.osError "a"), .exc (.marsError "b"), .ok 7] 0 2).1 ∧
      2 ≤ 2 :=
  ⟨by decide,
    retry_num_le_max [.exc (.osError "a"), .exc (.marsError "b"), .ok 7]
      0 2 (by decide) 2 (by decide)⟩

/-- C5: the result filler unwraps an ExecutionError to its nested error
and uses that error's traceback, sets status cancelled exactly when the
(unwrapped) exception is a cancellation and errored otherwise, and
populates status, progress 1.0, error and traceback. -/
theorem fill_result_fields (exc : PyExc) (r : SubtaskResult) :
    (∀ nested tb, exc = .executionError nested tb →
      (fill_subtask_result_with_exception exc r).error = some nested ∧
      (fill_subtask_result_with_exception exc r).traceback =
        some nested.traceback) ∧
    ((fill_subtask_result_with_exception exc r).status =
      if (match exc with
          | .executionError nested _ => nested
          | e => e).isCancelled
      then SubtaskStatus.cancelled else SubtaskStatus.errored) ∧
    (fill_subtask_result_with_exception exc r).progress = 1 ∧
    ((fill_subtask_result_with_exception exc r).error).isSome ∧
    ((fill_subtask_result_with_exception exc r).traceback).isSome := by
  match exc with
  | .cancelledError tb =>
    refine ⟨?_, ?_, ?_, ?_, ?_⟩ <;>
      simp [fill_subtask_result_with_exception, PyExc.isCancelled]
  | .executionError nested tb =>
    refine ⟨?_, ?_, ?_, ?_, ?_⟩ <;>
      simp [fill_subtask_result_with_exception]
  | .otherExc name tb =>
    refine ⟨?_, ?_, ?_, ?_, ?_⟩ <;>
      simp [fill_subtask_result_with_exception, PyExc.isCancelled]

/-- Witness for fill_result_fields: an ExecutionError wrapping a
cancellation is unwrapped and yields status cancelled. -/
theorem fill_result_fields_witness :
    (fill_subtask_result_with_exception
        (.executionError (.cancelledError 3) 9)
        { status := .running, progress := 0, dataSize := none,
          error := none, traceback := none }).error =
      some (.cancelledError 3) ∧
    (fill_subtask_result_with_exception
        (.executionError (.cancelledError 3) 9)
        { status := .running, progress := 0, dataSize := none,
          error := none, traceback := none }).traceback = some 3 :=
  (fill_result_fields (.executionError (.cancelledError 3) 9)
      { status := .running, progress := 0, dataSize := none,
        error := none, traceback := none }).1
    (.cancelledError 3) 9 rfl

/-- C6: a non-retryable subtask attempts run_subtask_once exactly once,
and on any exception the raised _UnretryableException carries exactly the
operands of the graph chunks whose retryable attribute is false: an op is
in the diagnostic iff it is the op of some chunk with retryable false. -/
theorem unretryable_once (graph : List PChunk) (attempt : AttemptRes) :
    (run_once_unretryable graph attempt).1 = 1 ∧
    (∀ e, attempt = .exc e →
      ∃ ops, (run_once_unretryable graph attempt).2 =
          .unretryableWrap e ops ∧
        ∀ op, op ∈ ops ↔
          ∃ chunk ∈ graph, chunk.op = op ∧ op.retryable = false) := by
  constructor
  · cases attempt <;> rfl
  · intro e he
    subst he
    refine ⟨_, rfl, ?_⟩
    intro op
    simp only [run_once_unretryable, List.mem_map, List.mem_filter]
    constructor
    · rintro ⟨chunk, ⟨hmem, hret⟩, rfl⟩
      exact ⟨chunk, hmem, rfl, by simpa using hret⟩
    · rintro ⟨chunk, hmem, rfl, hret⟩
      exact ⟨chunk, ⟨hmem, by simpa using hret⟩, rfl⟩

/-- Witness for unretryable_once: a failing attempt on a graph with one
unretryable op yields a diagnostic containing exactly that op. -/
theorem unretryable_once_witness :
    (run_once_unretryable
        [{ key := "c1", op := { key := "o1", retryable := false } }]
        (.exc (.osError "boom"))).1 = 1 ∧
    ∃ ops,
      (run_once_unretryable
          [{ key := "c1", op := { key := "o1", retryable := false } }]
          (.exc (.osError "boom"))).2 =
        .unretryableWrap (.osError "boom") ops ∧
      ∀ op, op ∈ ops ↔
        ∃ chunk ∈
            [({ key := "c1",
                op := { key := "o1", retryable := false } } : PChunk)],
          chunk.op = op ∧ op.retryable = false :=
  ⟨(unretryable_once
        [{ key := "c1", op := { key := "o1", retryable := false } }]
        (.exc (.osError "boom"))).1,
    (unretryable_once
        [{ key := "c1", op := { key := "o1", retryable := false } }]
        (.exc (.osError "boom"))).2 (.osError "boom") rfl⟩

/-- C10: the progress computation divides by the actual chunk count with
no zero guard; the count is zero exactly when every chunk of the raw
graph is a Fetch or FetchShuffle, in which case the sample is the raised
ZeroDivisionError (none); when some chunk is a non-fetch op the sample is
the sum of op progress over the count. -/
theorem progress_division (chunks : List RChunk)
    (opProgress : List (String × ℚ)) :
    (actual_chunk_count chunks = 0 ↔
      ∀ c ∈ chunks, c.isFetchLike = true) ∧
    (actual_chunk_count chunks = 0 →
      progress_sample opProgress (actual_chunk_count chunks) = none) ∧
    (actual_chunk_count chunks ≠ 0 →
      progress_sample opProgress (actual_chunk_count chunks) =
        some ((opProgress.map (·.2)).sum /
          (actual_chunk_count chunks : ℚ))) := by
  refine ⟨?_, ?_, ?_⟩
  · simp [actual_chunk_count, List.length_eq_zero, List.filter_eq_nil_iff]
  · intro h
    simp [progress_sample, h]
  · intro h
    simp [progress_sample, h]

/-- Witness for progress_division: a subtask whose chunks are all fetch
ops has actual chunk count 0 and its progress sample is the division by
zero error. -/
theorem progress_division_witness :
    progress_sample [("op1", (1 : ℚ))]
      (actual_chunk_count [{ key := "a", isFetchLike := true }]) = none :=
  (progress_division [{ key := "a", isFetchLike := true }]
      [("op1", (1 : ℚ))]).2.1 (by decide)

/-- C1: on every exit of run_subtask_once, if a slot was acquired then
the trace starts with the quota request, the slot acquisition happens
strictly after it, and the trace ends with the slot release immediately
followed by the quota release: the slot is released before the quota, the
reverse of the quota before slot acquisition order. -/
theorem once_release_order (env : OnceEnv) (sid : Nat)
    (h : Ev1.slotAcquire sid ∈ (run_subtask_once env).1) :
    ∃ mid, (run_subtask_once env).1 =
        Ev1.quotaRequest :: mid ++ [Ev1.slotRelease sid, Ev1.quotaRelease] ∧
      Ev1.slotAcquire sid ∈ mid := by
  obtain ⟨quotaRes, cancelling1, slotRes, slotId, cancelling2, runRes,
    cancelTimesOut, recoveredSlot⟩ := env
  match quotaRes with
  | .cancel =>
    exfalso
    match recoveredSlot with
    | none => simp [run_subtask_once, once_finally] at h
    | some r => simp [run_subtask_once, once_finally] at h
  | .exc e =>
    exfalso
    match recoveredSlot with
    | none => simp [run_subtask_once, once_finally] at h
    | some r => simp [run_subtask_once, once_finally] at h
  | .ok =>
    match cancelling1 with
    | true =>
      exfalso
      match recoveredSlot with
      | none => simp [run_subtask_once, once_finally] at h
      | some r => simp [run_subtask_once, once_finally] at h
    | false =>
      match slotRes with
      | .cancel =>
        exfalso
        match recoveredSlot with
        | none => simp [run_subtask_once, once_finally] at h
        | some r => simp [run_subtask_once, once_finally] at h
      | .exc e =>
        exfalso
        match recoveredSlot with
        | none => simp [run_subtask_once, once_finally] at h
        | some r => simp [run_subtask_once, once_finally] at h
      | .ok =>
        match cancelling2 with
        | true =>
          have hsid : sid = slotId := by
            simp [run_subtask_once, once_finally] at h
            exact h
          subst hsid
          exact ⟨[Ev1.slotAcquire sid], by
            simp [run_subtask_once, once_finally], by simp⟩
        | false =>
          match runRes with
          | .ok v =>
            have hsid : sid = slotId := by
              simp [run_subtask_once, once_finally] at h
              exact h
            subst hsid
            exact ⟨[Ev1.slotAcquire sid, Ev1.runInSlot sid], by
              simp [run_subtask_once, once_finally], by simp⟩
          | .cancel =>
            have hsid : sid = slotId := by
              match cancelTimesOut with
              | true => simp [run_subtask_once, once_finally] at h; exact h
              | false => simp [run_subtask_once, once_finally] at h; exact h
            subst hsid
            match cancelTimesOut with
            | true =>
              exact ⟨[Ev1.slotAcquire sid, Ev1.runInSlot sid,
                  Ev1.cancelInSlot sid, Ev1.killSlot sid,
                  Ev1.waitPoolRecovered], by
                simp [run_subtask_once, once_finally], by simp⟩
            | false =>
              exact ⟨[Ev1.slotAcquire sid, Ev1.runInSlot sid,
                  Ev1.cancelInSlot sid], by
                simp [run_subtask_once, once_finally], by simp⟩
          | .exc e =>
            have hsid : sid = slotId := by
              by_cases hr : e.isRetryable <;>
                simp [run_subtask_once, once_finally, hr] at h <;> exact h
            subst hsid
            by_cases hr : e.isRetryable
            · exact ⟨[Ev1.slotAcquire sid, Ev1.runInSlot sid,
                  Ev1.waitPoolRecovered], by
                simp [run_subtask_once, once_finally, hr], by simp⟩
            · exact ⟨[Ev1.slotAcquire sid, Ev1.runInSlot sid], by
                simp [run_subtask_once, once_finally, hr], by simp⟩

/-- Witness for once_release_order: a run that is cancelled inside the
slot with a timed-out in-slot cancel still releases slot 7 and then the
quota. -/
theorem once_release_order_witness :
    ∃ mid,
      (run_subtask_once
          { quotaRes := .ok, cancelling1 := false, slotRes := .ok,
            slotId := 7, cancelling2 := false, runRes := .cancel,
            cancelTimesOut := true, recoveredSlot := none }).1 =
        Ev1.quotaRequest :: mid ++
          [Ev1.slotRelease 7, Ev1.quotaRelease] ∧
      Ev1.slotAcquire 7 ∈ mid :=
  once_release_order
    { quotaRes := .ok, cancelling1 := false, slotRes := .ok,
      slotId := 7, cancelling2 := false, runRes := .cancel,
      cancelTimesOut := true, recoveredSlot := none } 7 (by decide)

/-- C4: whenever load_input_data returns a list of keys, the run pipeline
invokes unpin_data exactly once and on exactly that key list, whatever
the outcome of the execute, unpin, store and meta steps: the unpin events
of the trace are exactly one event carrying those keys. -/
theorem run_unpins_once (env : RunEnv) (keys : List DataKey)
    (h : env.loadRes = .ok keys) :
    (processor_run env).1.filter Ev4.isUnpin = [.unpin keys] := by
  obtain ⟨loadRes, execRes, unpinRes, storeRes, metaRes⟩ := env
  simp only at h
  subst h
  match execRes, unpinRes with
  | .cancel, .ok => simp [processor_run, Ev4.isUnpin]
  | .exc e, .ok => simp [processor_run, Ev4.isUnpin]
  | .cancel, .cancel => simp [processor_run, Ev4.isUnpin]
  | .exc e, .cancel => simp [processor_run, Ev4.isUnpin]
  | .ok, .cancel => simp [processor_run, Ev4.isUnpin]
  | .cancel, .exc e2 => simp [processor_run, Ev4.isUnpin]
  | .exc e, .exc e2 => simp [processor_run, Ev4.isUnpin]
  | .ok, .exc e2 => simp [processor_run, Ev4.isUnpin]
  | .ok, .ok =>
    match storeRes with
    | .cancel => simp [processor_run, Ev4.isUnpin]
    | .exc e => simp [processor_run, Ev4.isUnpin]
    | .ok =>
      match metaRes with
      | .cancel => simp [processor_run, Ev4.isUnpin]
      | .exc e => simp [processor_run, Ev4.isUnpin]
      | .ok => simp [processor_run, Ev4.isUnpin]

/-- C3 counterexample: for a result chunk stored only through its mapper
keys (memory sizes 5 and 7), store_meta leaves result_data_size at 0,
while the claimed sum over all result chunks, mapper keys included, is
12; the accumulation at processor.py line 356 runs only in the
directly-stored branch, so the two differ. -/
theorem store_meta_data_size_counterexample :
    (store_meta mapperOnlyInfos [] [mapperChunk]).2.2 = 0 ∧
    ([mapperChunk].map (claimed_result_memory mapperOnlyInfos)).sum = 12 ∧
    ¬ ((store_meta mapperOnlyInfos [] [mapperChunk]).2.2 =
      ([mapperChunk].map (claimed_result_memory mapperOnlyInfos)).sum) :=
  ⟨by decide, by decide, by decide⟩

/-- C3 amended: after store_meta, result.data_size equals the sum of the
memory sizes of the directly stored result chunks only, those whose key
is among the put results; a shuffle mapper result chunk has its mapper
key sizes summed for the published meta but contributes nothing to
result.data_size. -/
theorem store_meta_data_size (infos : List (DataKey × StoreInfo))
    (updateMetaChunks resultChunks : List MChunk) :
    (store_meta infos updateMetaChunks resultChunks).2.2 =
      (resultChunks.map fun c =>
        match alookup infos (.simple c.key) with
        | some info => info.memory_size
        | none => 0).sum := by
  induction resultChunks with
  | nil => rfl
  | cons c rest ih =>
    simp only [store_meta, List.map_cons, List.sum_cons, ih]

/-! Helper lemmas about the estimator loop. -/

theorem est_step_max_le (g : EGraph) (og : OpGraph) (key : String)
    (rest : List String) (st st2 : EstState)
    (h : est_step g og key rest st = some st2) :
    st.maxMemoryCost ≤ st2.maxMemoryCost := by
  unfold est_step at h
  simp only [] at h
  repeat' split at h
  all_goals
    first
      | exact Option.noConfusion h
      | (injection h with h2; subst h2; exact le_max_right _ _)

theorem estLoop_max_le (g : EGraph) (og : OpGraph) :
    ∀ (fuel : Nat) (st : EstState) (s : Nat) (m : Int),
      estLoop g og fuel st = some (s, m) → st.maxMemoryCost ≤ m := by
  intro fuel
  induction fuel with
  | zero =>
    intro st s m h
    unfold estLoop at h
    split at h
    · injection h with h2
      injection h2 with h3 h4
      omega
    · exact Option.noConfusion h
  | succ fuel ih =>
    intro st s m h
    unfold estLoop at h
    split at h
    · injection h with h2
      injection h2 with h3 h4
      omega
    · rename_i key rest hstack
      split at h
      · exact Option.noConfusion h
      · rename_i st2 hstep
        exact le_trans (est_step_max_le g og key rest st st2 hstep)
          (ih st2 s m h)

theorem alookup_doubleMem (ctx : SizeCtx) (k : String) :
    alookup (doubleMem ctx) k =
      (alookup ctx k).map fun v => (v.1, 2 * v.2) := by
  induction ctx with
  | nil => rfl
  | cons e rest ih =>
    by_cases hk : e.1 = k
    · simp [doubleMem, alookup, hk]
    · simp only [doubleMem, List.map_cons, alookup, hk, if_false]
      exact ih

theorem aremove_doubleMem (ctx : SizeCtx) (k : String) :
    aremove (doubleMem ctx) k = doubleMem (aremove ctx k) := by
  induction ctx with
  | nil => rfl
  | cons e rest ih =>
    by_cases hk : e.1 = k
    · simp [doubleMem, aremove, hk]
    · simp only [doubleMem, List.map_cons, aremove, hk, if_false]
      congr 1

theorem sumSizes_snd_doubleMem (ctx : SizeCtx) :
    ∀ ks : List String,
      sumSizes (·.2) (doubleMem ctx) ks =
        (sumSizes (·.2) ctx ks).map fun n => 2 * n := by
  intro ks
  induction ks with
  | nil => rfl
  | cons k rest ih =>
    unfold sumSizes
    rw [alookup_doubleMem, ih]
    cases halt : alookup ctx k with
    | none => rfl
    | some v =>
      cases hrest : sumSizes (fun x => x.2) ctx rest with
      | none => rfl
      | some n =>
        show some _ = some _
        congr 1
        ring

theorem sumCalcVals_doubleMem (ctx : SizeCtx) :
    sumCalcVals (doubleMem ctx) = 2 * sumCalcVals ctx := by
  induction ctx with
  | nil => rfl
  | cons e rest ih =>
    simp only [sumCalcVals, doubleMem, List.map_cons, List.sum_cons] at *
    omega

theorem sumStoreVals_doubleMem (ctx : SizeCtx) :
    sumStoreVals (doubleMem ctx) = sumStoreVals ctx := by
  induction ctx with
  | nil => rfl
  | cons e rest ih =>
    simp only [sumStoreVals, doubleMem, List.map_cons, List.sum_cons] at *
    omega

theorem two_mul_max (a b : Int) : max (2 * a) (2 * b) = 2 * max a b := by
  rcases le_total a b with hab | hab
  · rw [max_eq_right hab, max_eq_right (by omega)]
  · rw [max_eq_left hab, max_eq_left (by omega)]

theorem getD_doubleMem (o : Option (Nat × Nat)) :
    (o.map fun v => (v.1, 2 * v.2)).getD (0, 0) =
      ((o.getD (0, 0)).1, 2 * (o.getD (0, 0)).2) := by
  cases o <;> rfl

theorem popOuts_double (ck : List (String × Int)) :
    ∀ (outs : List String) (a : Int) (ctx : SizeCtx),
      popOuts true ck outs (2 * a, doubleMem ctx) =
        (2 * (popOuts true ck outs (a, ctx)).1,
          doubleMem (popOuts true ck outs (a, ctx)).2) := by
  intro outs
  induction outs with
  | nil => intro a ctx; rfl
  | cons k ks ih =>
    intro a ctx
    unfold popOuts
    rw [alookup_doubleMem, getD_doubleMem]
    simp only [if_true]
    by_cases hck : csGet ck k = 0
    · rw [if_pos hck, if_pos hck, aremove_doubleMem]
      have h2 :
          2 * a + ((2 * ((alookup ctx k).getD (0, 0)).2 : Nat) : Int) =
            2 * (a + (((alookup ctx k).getD (0, 0)).2 : Int)) := by
        push_cast; ring
      rw [h2]
      exact ih _ _
    · rw [if_neg hck, if_neg hck]
      have h2 :
          2 * a + ((2 * ((alookup ctx k).getD (0, 0)).2 : Nat) : Int) =
            2 * (a + (((alookup ctx k).getD (0, 0)).2 : Int)) := by
        push_cast; ring
      rw [h2]
      exact ih _ _

theorem keyToOp_fetch (g : EGraph) (hf : FetchOnly g) (k : String)
    (op : EOp) (h : g.keyToOp k = some op) : op.isFetch = true := by
  unfold EGraph.keyToOp at h
  cases hfind : g.chunks.find? (fun c => c.op.key = k) with
  | none => rw [hfind] at h; exact Option.noConfusion h
  | some c =>
    rw [hfind] at h
    injection h with h2
    subst h2
    exact hf c (List.mem_of_find?_eq_some hfind)

theorem procPreds_double (g : EGraph) (hf : FetchOnly g) :
    ∀ (ps : List String) (sr ck : List (String × Int)) (ctx : SizeCtx)
      (total : Int)
      (r : List (String × Int) × List (String × Int) × SizeCtx × Int),
      procPreds g ps sr ck ctx total = some r →
      procPreds g ps sr ck (doubleMem ctx) (2 * total) =
        some (r.1, r.2.1, doubleMem r.2.2.1, 2 * r.2.2.2) := by
  intro ps
  induction ps with
  | nil =>
    intro sr ck ctx total r h
    unfold procPreds at h ⊢
    injection h with h2
    subst h2
    rfl
  | cons p ps ih =>
    intro sr ck ctx total r h
    unfold procPreds at h ⊢
    simp only [] at h ⊢
    by_cases hc : csGet sr p - 1 = 0
    · rw [if_pos hc] at h ⊢
      cases hop : g.keyToOp p with
      | none =>
        rw [hop] at h
        simp at h
      | some predOp =>
        rw [hop] at h
        simp only [] at h
        simp only []
        have hfetch : predOp.isFetch = true := keyToOp_fetch g hf p predOp hop
        rw [hfetch] at h ⊢
        have hpop := popOuts_double
          (predOp.outputKeys.foldl (fun m k2 => aset m k2 (csGet m k2 - 1)) ck)
          predOp.outputKeys 0 ctx
        have hzero : (2 : Int) * 0 = 0 := by ring
        rw [hzero] at hpop
        rw [hpop]
        have harith : 2 * total -
            2 * (popOuts true
              (predOp.outputKeys.foldl
                (fun m k2 => aset m k2 (csGet m k2 - 1)) ck)
              predOp.outputKeys (0, ctx)).1 =
          2 * (total -
            (popOuts true
              (predOp.outputKeys.foldl
                (fun m k2 => aset m k2 (csGet m k2 - 1)) ck)
              predOp.outputKeys (0, ctx)).1) := by ring
        rw [harith]
        exact ih _ _ _ _ r h
    · rw [if_neg hc] at h ⊢
      exact ih _ _ _ _ r h

theorem est_step_double (g : EGraph) (og : OpGraph) (hf : FetchOnly g)
    (key : String) (rest : List String) (st st2 : EstState)
    (h : est_step g og key rest st = some st2) :
    est_step g og key rest
      { stack := st.stack, predRef := st.predRef, succRef := st.succRef,
        sizeCtx := doubleMem st.sizeCtx,
        chunkKeySizes := st.chunkKeySizes,
        totalMemoryCost := 2 * st.totalMemoryCost,
        maxMemoryCost := 2 * st.maxMemoryCost } =
      some
        { stack := st2.stack, predRef := st2.predRef,
          succRef := st2.succRef, sizeCtx := doubleMem st2.sizeCtx,
          chunkKeySizes := st2.chunkKeySizes,
          totalMemoryCost := 2 * st2.totalMemoryCost,
          maxMemoryCost := 2 * st2.maxMemoryCost } := by
  unfold est_step at h ⊢
  cases hop : g.keyToOp key with
  | none =>
    rw [hop] at h
    simp at h
  | some op =>
    rw [hop] at h
    simp only [] at h
    simp only []
    have hfetch : op.isFetch = true := keyToOp_fetch g hf key op hop
    rw [hfetch] at h ⊢
    simp only [eq_self_iff_true, if_true] at h ⊢
    cases hsum : sumSizes (fun x => x.2) st.sizeCtx op.outputKeys with
    | none =>
      rw [hsum] at h
      simp at h
    | some calcCost =>
      rw [hsum] at h
      simp only [] at h
      rw [sumSizes_snd_doubleMem st.sizeCtx op.outputKeys, hsum]
      simp only [Option.map_some']
      cases hproc : procPreds g (og.predsOf key) st.succRef
          st.chunkKeySizes st.sizeCtx
          (st.totalMemoryCost + (calcCost : Int)) with
      | none =>
        rw [hproc] at h
        simp at h
      | some r =>
        rw [hproc] at h
        simp only [] at h
        injection h with h2
        subst h2
        have e1 : 2 * st.totalMemoryCost + ((2 * calcCost : Nat) : Int) =
            2 * (st.totalMemoryCost + (calcCost : Int)) := by
          push_cast; ring
        rw [e1, procPreds_double g hf (og.predsOf key) st.succRef
          st.chunkKeySizes st.sizeCtx
          (st.totalMemoryCost + (calcCost : Int)) r hproc]
        simp only []
        rw [two_mul_max]

theorem estLoop_double (g : EGraph) (og : OpGraph) (hf : FetchOnly g) :
    ∀ (fuel : Nat) (st : EstState) (s : Nat) (m : Int),
      estLoop g og fuel st = some (s, m) →
      estLoop g og fuel
        { stack := st.stack, predRef := st.predRef, succRef := st.succRef,
          sizeCtx := doubleMem st.sizeCtx,
          chunkKeySizes := st.chunkKeySizes,
          totalMemoryCost := 2 * st.totalMemoryCost,
          maxMemoryCost := 2 * st.maxMemoryCost } = some (s, 2 * m) := by
  intro fuel
  induction fuel with
  | zero =>
    intro st s m h
    unfold estLoop at h ⊢
    simp only []
    cases hst : st.stack with
    | nil =>
      rw [hst] at h
      simp only [] at h
      injection h with h2
      injection h2 with h3 h4
      simp only []
      rw [sumStoreVals_doubleMem, h3, h4]
    | cons key rest =>
      rw [hst] at h
      simp at h
  | succ fuel ih =>
    intro st s m h
    unfold estLoop at h ⊢
    simp only []
    cases hst : st.stack with
    | nil =>
      rw [hst] at h
      simp only [] at h
      injection h with h2
      injection h2 with h3 h4
      simp only []
      rw [sumStoreVals_doubleMem, h3, h4]
    | cons key rest =>
      rw [hst] at h
      simp only [] at h
      cases hstep : est_step g og key rest st with
      | none =>
        rw [hstep] at h
        simp at h
      | some st3 =>
        rw [hstep] at h
        simp only [] at h
        have hd := est_step_double g og hf key rest st st3 hstep
        rw [hst] at hd
        simp only []
        rw [hd]
        exact ih st3 s m h

/-- C9: whenever estimate_sizes returns, its peak_memory_cost is at least
the sum of the memory-cost components of all input_sizes entries, which
is the value the running peak is initialized to before any operand is
processed, and the peak is therefore non-negative. -/
theorem estimate_peak_lower_bound (g : EGraph)
    (inputSizes : List (String × Nat × Nat)) (s : Nat) (m : Int)
    (h : estimate_sizes g inputSizes = some (s, m)) :
    ((sumCalcVals inputSizes : Nat) : Int) ≤ m ∧ 0 ≤ m := by
  unfold estimate_sizes at h
  have h1 := estLoop_max_le g (buildOpGraph g) _ _ s m h
  simp only [] at h1
  exact ⟨h1, le_trans (Int.natCast_nonneg _) h1⟩

/-- Witness for estimate_peak_lower_bound: the peak for two independent
fetched inputs of memory costs 50 and 70 is at least their sum 120. -/
theorem estimate_peak_lower_bound_witness :
    ((sumCalcVals [("a", 100, 50), ("b", 200, 70)] : Nat) : Int) ≤ 120 ∧
      (0 : Int) ≤ 120 :=
  estimate_peak_lower_bound gAllFetch [("a", 100, 50), ("b", 200, 70)]
    300 120 (by decide)

/-- C7 counterexample: for the graph with a fetched chunk a feeding a
computed chunk b whose estimate is constant, doubling the memory cost of
the only input raises the peak from 200 only to 300, less than double. -/
theorem estimate_doubling_counterexample :
    estimate_sizes gFetchCompute [("a", 100, 100)] = some (100, 200) ∧
    estimate_sizes gFetchCompute (doubleMem [("a", 100, 100)]) =
      some (100, 300) ∧
    ¬ (2 * (200 : Int) ≤ 300) :=
  ⟨by decide, by decide, by decide⟩

/-- C7 amended: when every operand of the chunk graph is a Fetch,
doubling the memory-cost component of every input entry exactly doubles
(hence at least doubles) the peak_memory_cost returned by
estimate_sizes, while the final store size is unchanged. -/
theorem estimate_doubling_fetch_only (g : EGraph)
    (inputSizes : List (String × Nat × Nat)) (s : Nat) (m : Int)
    (hf : ∀ c ∈ g.chunks, c.op.isFetch = true)
    (h : estimate_sizes g inputSizes = some (s, m)) :
    estimate_sizes g (doubleMem inputSizes) = some (s, 2 * m) := by
  unfold estimate_sizes at h ⊢
  have h2 := estLoop_double g (buildOpGraph g) hf _ _ s m h
  simp only [] at h2
  have e0 : (2 : Int) * 0 = 0 := by ring
  rw [e0] at h2
  have e1 : ((sumCalcVals (doubleMem inputSizes) : Nat) : Int) =
      2 * ((sumCalcVals inputSizes : Nat) : Int) := by
    rw [sumCalcVals_doubleMem]
    push_cast
    ring
  rw [e1]
  exact h2

/-- Witness for estimate_doubling_fetch_only: on the all-fetch graph with
inputs of memory costs 50 and 70, doubling the inputs doubles the peak
from 120 to 240. -/
theorem estimate_doubling_fetch_only_witness :
    estimate_sizes gAllFetch (doubleMem [("a", 100, 50), ("b", 200, 70)]) =
      some (300, 2 * 120) :=
  estimate_doubling_fetch_only gAllFetch [("a", 100, 50), ("b", 200, 70)]
    300 120 (by decide) (by decide)

/-- Witness for run_unpins_once: a run whose execution is cancelled still
unpins its two loaded keys exactly once. -/
theorem run_unpins_once_witness :
    (processor_run
        { loadRes := .ok [.simple "a", .mapper "s" 0], execRes := .cancel,
          unpinRes := .ok, storeRes := .ok, metaRes := .ok }).1.filter
      Ev4.isUnpin = [.unpin [.simple "a", .mapper "s" 0]] :=
  run_unpins_once
    { loadRes := .ok [.simple "a", .mapper "s" 0], execRes := .cancel,
      unpinRes := .ok, storeRes := .ok, metaRes := .ok }
    [.simple "a", .mapper "s" 0] rfl

end MarsExec
